import Mathlib

set_option allowUnsafeReducibility true
attribute [local semireducible] Rat.add Rat.sub Rat.mul Rat.inv Rat.div Rat.ofScientific

/-!
Verification of the computational core of `src/app.py` (crypto dashboard):
indicator engine (`add_indicators`), signal engine (`ai_signal`), the SMA
backtest loop, the risk/reward tool, and the trade-log store
(`load_trades`/`save_trades`).

The Python code works on pandas Series of IEEE-754 doubles, where "undefined"
indicator entries are the sentinel NaN and division can produce infinities.
We embed those scalars as `FVal`: an exact rational together with the three
non-finite states that actually arise (NaN, +inf, -inf).  Rationals stand in
for doubles: every claim here is about comparisons, means and divisions on
small decimal inputs, none about rounding.
-/

/-- A pandas/NumPy float scalar: NaN, +infinity, -infinity, or a finite value
(modelled exactly as a rational). -/
inductive FVal where
  | nan : FVal
  | pinf : FVal
  | ninf : FVal
  | val : ℚ → FVal
deriving DecidableEq, Repr

/-- IEEE-754 addition on `FVal`: NaN absorbs, opposite infinities give NaN. -/
def FVal.add : FVal → FVal → FVal
  | nan, _ => nan
  | _, nan => nan
  | pinf, ninf => nan
  | ninf, pinf => nan
  | pinf, _ => pinf
  | _, pinf => pinf
  | ninf, _ => ninf
  | _, ninf => ninf
  | val a, val b => val (a + b)

/-- IEEE-754 negation on `FVal`. -/
def FVal.neg : FVal → FVal
  | nan => nan
  | pinf => ninf
  | ninf => pinf
  | val a => val (-a)

/-- IEEE-754 subtraction: `a - b = a + (-b)`. -/
def FVal.sub (a b : FVal) : FVal := a.add b.neg

/-- IEEE-754 division on `FVal` as NumPy performs it inside a Series:
`x/0` is `+inf`/`-inf` by the sign of `x`, `0/0` is NaN, `inf/inf` is NaN,
finite/infinite is `0`.  (Signed zeros do not arise in this program.) -/
def FVal.div : FVal → FVal → FVal
  | nan, _ => nan
  | _, nan => nan
  | pinf, pinf => nan
  | pinf, ninf => nan
  | ninf, pinf => nan
  | ninf, ninf => nan
  | pinf, val b => if b < 0 then ninf else pinf
  | ninf, val b => if b < 0 then pinf else ninf
  | val _, pinf => val 0
  | val _, ninf => val 0
  | val a, val b =>
      if b = 0 then (if a = 0 then nan else if 0 < a then pinf else ninf)
      else val (a / b)

/-- IEEE-754 `>`: any comparison involving NaN is false. -/
def FVal.gt : FVal → FVal → Bool
  | nan, _ => false
  | _, nan => false
  | pinf, pinf => false
  | pinf, _ => true
  | _, pinf => false
  | ninf, ninf => false
  | val _, ninf => true
  | ninf, _ => false
  | val a, val b => decide (b < a)

/-- IEEE-754 `<`: `a < b` iff `b > a` (false whenever NaN is involved). -/
def FVal.lt (a b : FVal) : Bool := FVal.gt b a

/-- pandas `Series.clip(lower=a)`: NaN passes through, values below `a`
are raised to `a`. -/
def FVal.clipLower (a : ℚ) : FVal → FVal
  | nan => nan
  | pinf => pinf
  | ninf => val a
  | val q => val (max q a)

/-- pandas `Series.clip(upper=a)`: NaN passes through, values above `a`
are lowered to `a`. -/
def FVal.clipUpper (a : ℚ) : FVal → FVal
  | nan => nan
  | pinf => val a
  | ninf => ninf
  | val q => val (min q a)

/-- pandas `Series.diff()`: entry 0 is NaN, entry `i` is `x[i] - x[i-1]`. -/
def seriesDiff (xs : List FVal) : List FVal :=
  (List.range xs.length).map fun i =>
    match i with
    | 0 => FVal.nan
    | Nat.succ j => FVal.sub (xs.getD i FVal.nan) (xs.getD j FVal.nan)

/-- pandas `Series.rolling(w).mean()` with the default `min_periods = w`:
entry `i` is NaN while fewer than `w` observations fit (`i + 1 < w`),
otherwise the mean of the window `xs[i-w+1..i]`; a NaN inside the window
makes the result NaN (which the NaN-absorbing `FVal.add` fold reproduces). -/
def rollingMean (w : ℕ) (xs : List FVal) : List FVal :=
  (List.range xs.length).map fun i =>
    if w ≤ i + 1 then
      (((xs.drop (i + 1 - w)).take w).foldl FVal.add (FVal.val 0)).div (FVal.val w)
    else FVal.nan

/-- pandas `Series.ewm(span=s).mean()` with the default `adjust=True`:
entry `i` is `(Σ_j r^(i-j)·x[j]) / (Σ_j r^(i-j))` for `r = 1 - 2/(s+1)`,
computed by the running-numerator/denominator recurrence.  Defined from
index 0 on; the price input contains no NaN. -/
def ewmMean (span : ℕ) (xs : List ℚ) : List ℚ :=
  let r : ℚ := 1 - 2 / (span + 1)
  (xs.foldl (fun acc x =>
      let num := x + r * acc.2.1
      let den := 1 + r * acc.2.2
      (acc.1 ++ [num / den], num, den)) (([] : List ℚ), (0 : ℚ), (0 : ℚ))).1

/-- The DataFrame object of the app: `get_chart` returns it with only the
`price` column (the `time` column plays no role in any claim); the four
indicator columns are absent (`none`) until `add_indicators` assigns them. -/
structure PandasDF where
  price : List ℚ
  sma20 : Option (List FVal)
  sma50 : Option (List FVal)
  ema20 : Option (List FVal)
  rsi : Option (List FVal)
deriving DecidableEq, Repr

/-- The DataFrame as `get_chart` delivers it: a price column, no indicator
columns yet. -/
def rawDF (prices : List ℚ) : PandasDF :=
  { price := prices, sma20 := none, sma50 := none, ema20 := none, rsi := none }

/-- `add_indicators(df)` (src/app.py lines 57-69): assigns the columns
`SMA20 = price.rolling(20).mean()`, `SMA50 = price.rolling(50).mean()`,
`EMA20 = price.ewm(span=20).mean()`, and
`RSI = 100 - 100/(1+rs)` where `delta = price.diff()`,
`gain = delta.clip(lower=0).rolling(14).mean()`,
`loss = -delta.clip(upper=0).rolling(14).mean()` (the unary minus applies
after the rolling mean), `rs = gain / loss`. -/
def add_indicators (df : PandasDF) : PandasDF :=
  let p := df.price.map FVal.val
  let delta := seriesDiff p
  let gain := rollingMean 14 (delta.map (FVal.clipLower 0))
  let loss := (rollingMean 14 (delta.map (FVal.clipUpper 0))).map FVal.neg
  let rs := List.zipWith FVal.div gain loss
  { df with
    sma20 := some (rollingMean 20 p)
    sma50 := some (rollingMean 50 p)
    ema20 := some ((ewmMean 20 df.price).map FVal.val)
    rsi := some (rs.map fun r =>
      (FVal.val 100).sub ((FVal.val 100).div ((FVal.val 1).add r))) }

/-- Python column assignment `df["SMA20"] = ...` mutates the DataFrame
in place, so after `add_indicators(df)` returns, the caller's argument
object is in the same state as the returned frame.  This definition is the
post-call state of the argument. -/
def add_indicators_argAfter (df : PandasDF) : PandasDF := add_indicators df

/-- `ai_signal(df)` (src/app.py lines 75-95).  Each `df[c].iloc[-1]` access
raises if the column is absent or empty, modelled by the `Option` chain;
the four `if` comparisons are IEEE comparisons (false on NaN); result is
`("BUY", score)` if `score >= 2`, `("SELL", score)` if `score <= -1`,
else `("HOLD", score)`. -/
def ai_signal (df : PandasDF) : Option (String × Int) := do
  let s20c ← df.sma20
  let s20 ← s20c.getLast?
  let s50c ← df.sma50
  let s50 ← s50c.getLast?
  let pr ← df.price.getLast?
  let e20c ← df.ema20
  let e20 ← e20c.getLast?
  let rsic ← df.rsi
  let rsiv ← rsic.getLast?
  let score : Int :=
    (if s20.gt s50 then 1 else 0) +
    (if (FVal.val pr).gt e20 then 1 else 0) +
    (if rsiv.lt (FVal.val 30) then 1 else 0) -
    (if rsiv.gt (FVal.val 70) then 1 else 0)
  if score ≥ 2 then return ("BUY", score)
  else if score ≤ -1 then return ("SELL", score)
  else return ("HOLD", score)

/-- One iteration of the backtest loop (src/app.py lines 160-168) at index
`i`, acting on the state `(cash, coin_amt)`:
buy everything when `SMA20.iloc[i] > SMA50.iloc[i]` and flat, liquidate
when `SMA20.iloc[i] < SMA50.iloc[i]` and holding. -/
def backtestStep (s20 s50 : List FVal) (prices : List ℚ) (st : ℚ × ℚ) (i : ℕ) : ℚ × ℚ :=
  if (s20.getD i FVal.nan).gt (s50.getD i FVal.nan) = true ∧ st.2 = 0 then
    (0, st.1 / prices.getD i 0)
  else if (s20.getD i FVal.nan).lt (s50.getD i FVal.nan) = true ∧ 0 < st.2 then
    (st.2 * prices.getD i 0, 0)
  else st

/-- The "Backtest SMA Strategy" handler (src/app.py lines 155-172):
`cash = 1000`, `coin_amt = 0`, `for i in range(50, len(df))` run
`backtestStep`, then `final = cash if cash > 0 else coin_amt * price.iloc[-1]`.
Column accesses and the `iloc[-1]` on an empty frame raise, modelled by the
`Option` chain. -/
def backtest (df : PandasDF) : Option ℚ := do
  let s20 ← df.sma20
  let s50 ← df.sma50
  let fin := (List.range' 50 (df.price.length - 50)).foldl
      (backtestStep s20 s50 df.price) ((1000 : ℚ), (0 : ℚ))
  if 0 < fin.1 then return fin.1
  else do
    let lp ← df.price.getLast?
    return fin.2 * lp

/-- The SL/TP tool (src/app.py lines 184-187).  When all three inputs are
positive it computes `risk = entry - sl`, `reward = tp - entry` and displays
`reward/risk`; Python float division by `0.0` raises `ZeroDivisionError`,
modelled as `Except.error`.  When some input is not positive, nothing is
computed (`Except.ok none`). -/
def riskRewardTool (entry sl tp : ℚ) : Except String (Option ℚ) :=
  if 0 < entry ∧ 0 < sl ∧ 0 < tp then
    let risk := entry - sl
    let reward := tp - entry
    if risk = 0 then Except.error "ZeroDivisionError"
    else Except.ok (some (reward / risk))
  else Except.ok none

/-- A trade record as the app appends it to `trades.json`:
`{"coin": ..., "type": ..., "amount": ..., "price": ...}`. -/
structure Trade where
  coin : String
  tradeType : String
  amount : ℚ
  price : ℚ
deriving DecidableEq, Repr

/-- The state of the file `trades.json`: absent, a fully written JSON list
of trades, or corrupt (truncated / partially written, so `json.load` would
fail on it). -/
inductive FileState where
  | absent : FileState
  | corrupt : FileState
  | content : List Trade → FileState
deriving DecidableEq, Repr

/-- `load_trades()` (src/app.py lines 26-30): returns `[]` when the file
does not exist, otherwise `json.load`s it; `json.load` on a corrupt file
raises, modelled as `none`. -/
def load_trades (fs : FileState) : Option (List Trade) :=
  match fs with
  | FileState.absent => some []
  | FileState.corrupt => none
  | FileState.content l => some l

/-- `save_trades(trades)` (src/app.py lines 32-34) as the sequence of file
states it drives `trades.json` through: the prior state, then the state
right after `open(DATA_FILE, "w")` (the open truncates the file, destroying
its contents before anything is written), then the state after `json.dump`
completes.  A disk failure between the open and the completed dump leaves
the file in the middle, corrupt state. -/
def save_trades_trace (trades : List Trade) (fs : FileState) : List FileState :=
  [fs, FileState.corrupt, FileState.content trades]

/-- `save_trades(trades)` when the write completes: the file holds exactly
the dumped list (the final state of `save_trades_trace`). -/
def save_trades (trades : List Trade) : FileState :=
  FileState.content trades

/-- The "Trade speichern" button handler (src/app.py lines 199-207):
`trades = load_trades(); trades.append(t); save_trades(trades)`.
Raises (`none`) when `load_trades` raises. -/
def logTradeAction (fs : FileState) (t : Trade) : Option FileState := do
  let trades ← load_trades fs
  return save_trades (trades ++ [t])

/-! ## Claim theorems -/

/-- C1: the spec demands that the signal engine refuse to classify (or mark
its score unreliable) when SMA20, SMA50, EMA20 or RSI is undefined at the
last index.  The code does not: on the one-point series `[10]`, SMA20, SMA50
and RSI are all NaN at the last index, yet `ai_signal` silently returns
`("HOLD", 0)` — a (signal, score) computed from comparisons against NaN,
which all evaluate false. -/
theorem ai_signal_scores_on_undefined :
    (add_indicators (rawDF [10])).sma20.bind List.getLast? = some FVal.nan ∧
    (add_indicators (rawDF [10])).sma50.bind List.getLast? = some FVal.nan ∧
    (add_indicators (rawDF [10])).rsi.bind List.getLast? = some FVal.nan ∧
    ai_signal (add_indicators (rawDF [10])) = some ("HOLD", 0) := by
  refine ⟨by decide, by decide, by decide, by decide⟩

/-- C2: the spec demands RSI = 100 whenever the rolling average loss is zero,
including a window of all-zero deltas, with division by zero special-cased.
The code computes `rs = gain/loss` with no special case: on the constant
series of 15 equal prices, at index 14 (where 14 deltas are available and
RSI should be defined) both the average gain and the average loss are 0, so
`rs = 0/0 = NaN` and RSI is NaN — undefined, not 100. -/
theorem rsi_nan_on_constant_series :
    (add_indicators (rawDF (List.replicate 15 (1 : ℚ)))).rsi.bind
        (fun c => getElem? c 14) = some FVal.nan ∧
    FVal.nan ≠ FVal.val 100 := by
  refine ⟨by decide, by decide⟩

/-- C3: the spec demands that entry = stop-loss be reported as an undefined
ratio, not a crash.  The code computes `reward/risk` unguarded; with
entry = sl = 100 (and tp = 130, all positive) `risk = 0.0` and Python float
division raises `ZeroDivisionError` — an uncaught crash, not a report. -/
theorem risk_tool_zero_division_crash :
    riskRewardTool 100 100 130 = Except.error "ZeroDivisionError" := rfl

/-- C4 counterexample: `add_indicators` is not pure over its input — pandas
column assignment mutates the argument frame in place.  On the raw
one-point frame the caller's object after the call (which has gained the
four indicator columns) differs from its value before the call. -/
theorem add_indicators_mutates_argument :
    add_indicators_argAfter (rawDF [1]) ≠ rawDF [1] := by
  decide

/-- C4 amended: `add_indicators` reads only the price column, leaves that
column unchanged, and has no effect other than on its argument frame; but
it mutates the argument in place, so the caller's object after the call
equals the returned indicator frame, not its pre-call value. -/
theorem add_indicators_depends_only_on_price (df df' : PandasDF)
    (h : df'.price = df.price) :
    (add_indicators df).price = df.price ∧
    add_indicators_argAfter df = add_indicators df ∧
    (add_indicators df').sma20 = (add_indicators df).sma20 ∧
    (add_indicators df').sma50 = (add_indicators df).sma50 ∧
    (add_indicators df').ema20 = (add_indicators df).ema20 ∧
    (add_indicators df').rsi = (add_indicators df).rsi := by
  refine ⟨rfl, rfl, ?_, ?_, ?_, ?_⟩ <;> simp [add_indicators, h]

/-- C4 amended, witness: two frames with the same one-point price column but
different indicator columns get identical indicator assignments. -/
theorem add_indicators_depends_only_on_price_witness :
    (PandasDF.mk [1] (some []) none none none).price = (rawDF [1]).price ∧
    ((add_indicators (rawDF [1])).price = (rawDF [1]).price ∧
      add_indicators_argAfter (rawDF [1]) = add_indicators (rawDF [1]) ∧
      (add_indicators (PandasDF.mk [1] (some []) none none none)).sma20 =
        (add_indicators (rawDF [1])).sma20 ∧
      (add_indicators (PandasDF.mk [1] (some []) none none none)).sma50 =
        (add_indicators (rawDF [1])).sma50 ∧
      (add_indicators (PandasDF.mk [1] (some []) none none none)).ema20 =
        (add_indicators (rawDF [1])).ema20 ∧
      (add_indicators (PandasDF.mk [1] (some []) none none none)).rsi =
        (add_indicators (rawDF [1])).rsi) :=
  ⟨rfl, add_indicators_depends_only_on_price (rawDF [1])
    (PandasDF.mk [1] (some []) none none none) rfl⟩

/-- C5: the spec demands that a failed save leave the previously persisted
log unchanged (atomic write).  The code opens `trades.json` with mode "w",
which truncates it before `json.dump` writes; a disk failure between the
open and the completed dump therefore leaves the file corrupt (truncated),
not equal to its prior one-trade contents. -/
theorem save_trades_truncate_destroys_log :
    getElem? (save_trades_trace
        [Trade.mk "Bitcoin" "BUY" 1 100, Trade.mk "Ethereum" "SELL" 2 50]
        (FileState.content [Trade.mk "Bitcoin" "BUY" 1 100])) 1 =
      some FileState.corrupt ∧
    FileState.corrupt ≠ FileState.content [Trade.mk "Bitcoin" "BUY" 1 100] := by
  refine ⟨rfl, by decide⟩

/-- C9: appending a trade and re-loading yields the prior log followed by
exactly that trade, and loading a store where nothing was ever saved yields
the empty sequence. -/
theorem trade_log_roundtrip (fs : FileState) (t : Trade) (prior : List Trade)
    (h : load_trades fs = some prior) :
    (logTradeAction fs t).bind load_trades = some (prior ++ [t]) ∧
    ((prior ++ [t]).getLast? = some t ∧ (prior ++ [t]).dropLast = prior) ∧
    load_trades FileState.absent = some [] := by
  refine ⟨?_, ⟨List.getLast?_concat prior, List.dropLast_concat⟩, rfl⟩
  have h2 : logTradeAction fs t = some (FileState.content (prior ++ [t])) := by
    unfold logTradeAction
    rw [h]
    rfl
  rw [h2]
  rfl

/-- C9 witness: a one-trade log plus a second trade round-trips. -/
theorem trade_log_roundtrip_witness :
    load_trades (FileState.content [Trade.mk "Bitcoin" "BUY" 1 100]) =
      some [Trade.mk "Bitcoin" "BUY" 1 100] ∧
    ((logTradeAction (FileState.content [Trade.mk "Bitcoin" "BUY" 1 100])
        (Trade.mk "Ethereum" "SELL" 2 50)).bind load_trades =
      some ([Trade.mk "Bitcoin" "BUY" 1 100] ++ [Trade.mk "Ethereum" "SELL" 2 50]) ∧
    (([Trade.mk "Bitcoin" "BUY" 1 100] ++ [Trade.mk "Ethereum" "SELL" 2 50]).getLast? =
        some (Trade.mk "Ethereum" "SELL" 2 50) ∧
      ([Trade.mk "Bitcoin" "BUY" 1 100] ++ [Trade.mk "Ethereum" "SELL" 2 50]).dropLast =
        [Trade.mk "Bitcoin" "BUY" 1 100]) ∧
    load_trades FileState.absent = some []) :=
  ⟨rfl, trade_log_roundtrip (FileState.content [Trade.mk "Bitcoin" "BUY" 1 100])
    (Trade.mk "Ethereum" "SELL" 2 50) [Trade.mk "Bitcoin" "BUY" 1 100] rfl⟩

/-- Folding `FVal.add` over finite values is rational summation. -/
theorem foldl_fadd_map_val (l : List ℚ) (q : ℚ) :
    (l.map FVal.val).foldl FVal.add (FVal.val q) = FVal.val (q + l.sum) := by
  induction l generalizing q with
  | nil => simp
  | cons x xs ih => simp [FVal.add, ih, add_assoc]

/-- `rollingMean` on an all-finite series: entry `i` is the mean of the
`w`-window ending at `i` once `w ≤ i + 1`, and NaN before that. -/
theorem rollingMean_map_val_getElem (w : ℕ) (hw : w ≠ 0) (ps : List ℚ) (i : ℕ)
    (hi : i < ps.length) :
    getElem? (rollingMean w (ps.map FVal.val)) i =
      some (if w ≤ i + 1 then FVal.val (((ps.drop (i + 1 - w)).take w).sum / w)
        else FVal.nan) := by
  have hw' : ((w : ℚ)) ≠ 0 := Nat.cast_ne_zero.mpr hw
  simp only [rollingMean, List.length_map, List.getElem?_map, List.getElem?_range, hi,
    if_pos, Option.map_some']
  by_cases h : w ≤ i + 1
  · rw [if_pos h, if_pos h, ← List.map_drop, ← List.map_take, foldl_fadd_map_val]
    simp [FVal.div, hw']
  · rw [if_neg h, if_neg h]

/-- `rollingMean` preserves the series length. -/
theorem rollingMean_length (w : ℕ) (xs : List FVal) :
    (rollingMean w xs).length = xs.length := by
  simp [rollingMean]

/-- C8: for every price series and each window `w ∈ {20, 50}`, the computed
SMA(`w`) column has the length of the series, equals the arithmetic mean of
`prices[i-w+1..i]` at every index `i ≥ w-1`, and is undefined (NaN) at every
index `i < w-1` — in particular, on a series shorter than 20 points SMA20 is
undefined at every index. -/
theorem sma_rolling_spec (ps : List ℚ) (w : ℕ) (hw : w = 20 ∨ w = 50) :
    ∃ col : List FVal,
      (w = 20 → (add_indicators (rawDF ps)).sma20 = some col) ∧
      (w = 50 → (add_indicators (rawDF ps)).sma50 = some col) ∧
      col.length = ps.length ∧
      (∀ i, i < ps.length → w - 1 ≤ i →
        getElem? col i = some (FVal.val (((ps.drop (i + 1 - w)).take w).sum / w))) ∧
      (∀ i, i < ps.length → i < w - 1 → getElem? col i = some FVal.nan) := by
  have hw0 : w ≠ 0 := by rcases hw with h | h <;> omega
  refine ⟨rollingMean w (ps.map FVal.val), ?_, ?_, ?_, ?_, ?_⟩
  · intro h
    subst h
    rfl
  · intro h
    subst h
    rfl
  · rw [rollingMean_length, List.length_map]
  · intro i hi hwi
    rw [rollingMean_map_val_getElem w hw0 ps i hi, if_pos (by omega)]
  · intro i hi hwi
    rw [rollingMean_map_val_getElem w hw0 ps i hi, if_neg (by omega)]

/-- C8 witness: the two-point series `[1, 2]` with `w = 20` (every index is
below `w - 1`, so SMA20 is NaN everywhere). -/
theorem sma_rolling_spec_witness :
    ((20 : ℕ) = 20 ∨ (20 : ℕ) = 50) ∧
    (∃ col : List FVal,
      ((20 : ℕ) = 20 → (add_indicators (rawDF [1, 2])).sma20 = some col) ∧
      ((20 : ℕ) = 50 → (add_indicators (rawDF [1, 2])).sma50 = some col) ∧
      col.length = ([1, 2] : List ℚ).length ∧
      (∀ i, i < ([1, 2] : List ℚ).length → 20 - 1 ≤ i →
        getElem? col i =
          some (FVal.val (((([1, 2] : List ℚ).drop (i + 1 - 20)).take 20).sum /
            ((20 : ℕ) : ℚ)))) ∧
      (∀ i, i < ([1, 2] : List ℚ).length → i < 20 - 1 →
        getElem? col i = some FVal.nan)) :=
  ⟨Or.inl rfl, sma_rolling_spec [1, 2] 20 (Or.inl rfl)⟩

/-- C7: when the last element of each of SMA20, SMA50, EMA20 and RSI (and of
the price column) is a finite value, the signal engine's score is the sum of
+1 if SMA20 > SMA50, +1 if price > EMA20, +1 if RSI < 30, and -1 if RSI > 70,
and the returned signal is BUY iff score ≥ 2, SELL iff score ≤ -1, and HOLD
otherwise. -/
theorem ai_signal_score_classification (df : PandasDF)
    (c1 c2 c3 c4 : List FVal) (a b e r p : ℚ) (score : ℤ)
    (h1 : df.sma20 = some c1) (g1 : c1.getLast? = some (FVal.val a))
    (h2 : df.sma50 = some c2) (g2 : c2.getLast? = some (FVal.val b))
    (hp : df.price.getLast? = some p)
    (h3 : df.ema20 = some c3) (g3 : c3.getLast? = some (FVal.val e))
    (h4 : df.rsi = some c4) (g4 : c4.getLast? = some (FVal.val r))
    (hs : score = (if b < a then 1 else 0) + (if e < p then 1 else 0) +
      (if r < 30 then 1 else 0) - (if 70 < r then 1 else 0)) :
    ∃ sig : String,
      ai_signal df = some (sig, score) ∧
      (sig = "BUY" ↔ 2 ≤ score) ∧
      (sig = "SELL" ↔ score ≤ -1) ∧
      (sig = "HOLD" ↔ ¬ 2 ≤ score ∧ ¬ score ≤ -1) := by
  have key : ai_signal df =
      if 2 ≤ score then some ("BUY", score)
      else if score ≤ -1 then some ("SELL", score)
      else some ("HOLD", score) := by
    simp only [ai_signal, h1, h2, h3, h4, hp, g1, g2, g3, g4, Option.some_bind,
      Option.bind_eq_bind, FVal.gt, FVal.lt, decide_eq_true_eq, ge_iff_le,
      Option.pure_def]
    rw [← hs]
  rcases Decidable.em (2 ≤ score) with hb | hb
  · refine ⟨"BUY", ?_, iff_of_true rfl hb, iff_of_false (by decide) (by omega),
      iff_of_false (by decide) (fun h => h.1 hb)⟩
    rw [key, if_pos hb]
  · rcases Decidable.em (score ≤ -1) with hsell | hsell
    · refine ⟨"SELL", ?_, iff_of_false (by decide) hb, iff_of_true rfl hsell,
        iff_of_false (by decide) (fun h => h.2 hsell)⟩
      rw [key, if_neg hb, if_pos hsell]
    · refine ⟨"HOLD", ?_, iff_of_false (by decide) hb,
        iff_of_false (by decide) hsell, iff_of_true rfl ⟨hb, hsell⟩⟩
      rw [key, if_neg hb, if_neg hsell]

/-- C7 witness: the spec's worked example — SMA20 = 105 > SMA50 = 100 (+1),
price = 106 > EMA20 = 104 (+1), RSI = 50 (no bonus or penalty), so the score
is 2 and the signal is BUY. -/
theorem ai_signal_score_classification_witness :
    ((2 : ℤ) = (if (100 : ℚ) < 105 then 1 else 0) +
      (if (104 : ℚ) < 106 then 1 else 0) +
      (if (50 : ℚ) < 30 then 1 else 0) - (if (70 : ℚ) < 50 then 1 else 0)) ∧
    (∃ sig : String,
      ai_signal (PandasDF.mk [106] (some [FVal.val 105]) (some [FVal.val 100])
        (some [FVal.val 104]) (some [FVal.val 50])) = some (sig, 2) ∧
      (sig = "BUY" ↔ (2 : ℤ) ≤ 2) ∧
      (sig = "SELL" ↔ (2 : ℤ) ≤ -1) ∧
      (sig = "HOLD" ↔ ¬ (2 : ℤ) ≤ 2 ∧ ¬ (2 : ℤ) ≤ -1)) :=
  ⟨by norm_num,
    ai_signal_score_classification
      (PandasDF.mk [106] (some [FVal.val 105]) (some [FVal.val 100])
        (some [FVal.val 104]) (some [FVal.val 50]))
      [FVal.val 105] [FVal.val 100] [FVal.val 104] [FVal.val 50]
      105 100 104 50 106 2 rfl rfl rfl rfl rfl rfl rfl rfl rfl (by norm_num)⟩

/-- `backtest` after `add_indicators` on a raw frame, reduced to its loop:
the columns are the two rolling means and the final value is the loop
state's cash if positive, else holdings marked to the last price. -/
theorem backtest_add_indicators (ps : List ℚ) :
    backtest (add_indicators (rawDF ps)) =
      (let fin := (List.range' 50 (ps.length - 50)).foldl
          (backtestStep (rollingMean 20 (ps.map FVal.val))
            (rollingMean 50 (ps.map FVal.val)) ps) ((1000 : ℚ), (0 : ℚ))
       if 0 < fin.1 then some fin.1
       else ps.getLast?.bind fun lp => some (fin.2 * lp)) := rfl

/-- While the SMA20-above-SMA50 comparison is false at every visited index,
the backtest loop never leaves the all-cash state. -/
theorem foldl_backtestStep_no_buy (s20 s50 : List FVal) (prices : List ℚ)
    (l : List ℕ) (c : ℚ)
    (h : ∀ i ∈ l, FVal.gt (s20.getD i FVal.nan) (s50.getD i FVal.nan) = false) :
    l.foldl (backtestStep s20 s50 prices) (c, 0) = (c, 0) := by
  induction l generalizing c with
  | nil => rfl
  | cons x xs ih =>
    rw [List.foldl_cons]
    have hx := h x (List.mem_cons_self x xs)
    have hstep : backtestStep s20 s50 prices (c, 0) x = (c, 0) := by
      unfold backtestStep
      rw [hx]
      simp
    rw [hstep]
    exact ih c (fun i hi => h i (List.mem_cons_of_mem x hi))

/-- C6: on every price series for which `SMA20.iloc[i] > SMA50.iloc[i]`
holds at no index `i` with `50 ≤ i < N` — in particular on every series
shorter than 50 points, where the loop body never runs — the backtest
simulates no trades and returns exactly the starting cash 1000. -/
theorem backtest_no_cross_returns_start_cash (ps : List ℚ)
    (h : ∀ i, 50 ≤ i → i < ps.length →
      FVal.gt ((rollingMean 20 (ps.map FVal.val)).getD i FVal.nan)
        ((rollingMean 50 (ps.map FVal.val)).getD i FVal.nan) = false) :
    backtest (add_indicators (rawDF ps)) = some 1000 := by
  rw [backtest_add_indicators]
  rw [foldl_backtestStep_no_buy _ _ ps _ 1000 (fun i hi => by
    have hm := List.mem_range'_1.mp hi
    exact h i hm.1 (by omega))]
  norm_num

/-- C6 witness: a three-point series — shorter than 50 points, so the loop
range is empty, the comparison hypothesis is vacuous, and the result is the
starting cash. -/
theorem backtest_no_cross_returns_start_cash_witness :
    (∀ i, 50 ≤ i → i < (List.replicate 3 (2 : ℚ)).length →
      FVal.gt ((rollingMean 20 ((List.replicate 3 (2 : ℚ)).map FVal.val)).getD i FVal.nan)
        ((rollingMean 50 ((List.replicate 3 (2 : ℚ)).map FVal.val)).getD i FVal.nan) =
          false) ∧
    backtest (add_indicators (rawDF (List.replicate 3 (2 : ℚ)))) = some 1000 :=
  ⟨fun i h1 h2 => absurd h2 (by simp; omega),
    backtest_no_cross_returns_start_cash (List.replicate 3 (2 : ℚ))
      (fun i h1 h2 => absurd h2 (by simp; omega))⟩

/-- The backtest loop's state invariant: the portfolio is either all cash
(positive cash, zero holdings) or all coin (zero cash, positive holdings). -/
def btInv (st : ℚ × ℚ) : Prop := (0 < st.1 ∧ st.2 = 0) ∨ (st.1 = 0 ∧ 0 < st.2)

/-- One backtest step preserves `btInv` when every price is positive. -/
theorem backtestStep_preserves_inv (s20 s50 : List FVal) (prices : List ℚ)
    (hpos : ∀ q ∈ prices, 0 < q) (i : ℕ) (hi : i < prices.length) (st : ℚ × ℚ)
    (h : btInv st) : btInv (backtestStep s20 s50 prices st i) := by
  have hpi : 0 < prices.getD i 0 := by
    rw [List.getD_eq_getElem prices 0 hi]
    exact hpos _ (List.getElem_mem hi)
  unfold backtestStep
  split_ifs with hbuy hsell
  · rcases h with ⟨hc, _⟩ | ⟨hc0, hcoin⟩
    · exact Or.inr ⟨rfl, div_pos hc hpi⟩
    · exact absurd hbuy.2 (ne_of_gt hcoin)
  · exact Or.inl ⟨mul_pos hsell.2 hpi, rfl⟩
  · exact h

/-- The backtest loop preserves `btInv` along any list of in-range indices. -/
theorem foldl_backtestStep_inv (s20 s50 : List FVal) (prices : List ℚ)
    (hpos : ∀ q ∈ prices, 0 < q) (l : List ℕ) (hl : ∀ i ∈ l, i < prices.length)
    (st : ℚ × ℚ) (h : btInv st) :
    btInv (l.foldl (backtestStep s20 s50 prices) st) := by
  induction l generalizing st with
  | nil => exact h
  | cons x xs ih =>
    rw [List.foldl_cons]
    exact ih (fun i hi => hl i (List.mem_cons_of_mem x hi)) _
      (backtestStep_preserves_inv s20 s50 prices hpos x
        (hl x (List.mem_cons_self x xs)) st h)

/-- C10: on every price series with all prices positive, at every step of
the backtest loop the state satisfies cash ≥ 0, holdings ≥ 0 and at most one
of the two is nonzero (all cash or all invested), and the final backtest
result is strictly positive. -/
theorem backtest_state_invariant (ps : List ℚ) (hpos : ∀ q ∈ ps, 0 < q) :
    (∀ n : ℕ,
      0 ≤ (((List.range' 50 (ps.length - 50)).take n).foldl
          (backtestStep (rollingMean 20 (ps.map FVal.val))
            (rollingMean 50 (ps.map FVal.val)) ps) ((1000 : ℚ), (0 : ℚ))).1 ∧
      0 ≤ (((List.range' 50 (ps.length - 50)).take n).foldl
          (backtestStep (rollingMean 20 (ps.map FVal.val))
            (rollingMean 50 (ps.map FVal.val)) ps) ((1000 : ℚ), (0 : ℚ))).2 ∧
      ¬((((List.range' 50 (ps.length - 50)).take n).foldl
          (backtestStep (rollingMean 20 (ps.map FVal.val))
            (rollingMean 50 (ps.map FVal.val)) ps) ((1000 : ℚ), (0 : ℚ))).1 ≠ 0 ∧
        (((List.range' 50 (ps.length - 50)).take n).foldl
          (backtestStep (rollingMean 20 (ps.map FVal.val))
            (rollingMean 50 (ps.map FVal.val)) ps) ((1000 : ℚ), (0 : ℚ))).2 ≠ 0)) ∧
    ∃ res : ℚ, backtest (add_indicators (rawDF ps)) = some res ∧ 0 < res := by
  have hmem : ∀ i ∈ List.range' 50 (ps.length - 50), i < ps.length := by
    intro i hi
    have hm := List.mem_range'_1.mp hi
    omega
  have hinv0 : btInv ((1000 : ℚ), (0 : ℚ)) := Or.inl (by norm_num)
  constructor
  · intro n
    have hstep := foldl_backtestStep_inv (rollingMean 20 (ps.map FVal.val))
      (rollingMean 50 (ps.map FVal.val)) ps hpos
      ((List.range' 50 (ps.length - 50)).take n)
      (fun i hi => hmem i (List.mem_of_mem_take hi)) _ hinv0
    rcases hstep with ⟨hc, h0⟩ | ⟨h0, hc⟩
    · exact ⟨le_of_lt hc, le_of_eq h0.symm, fun hcontra => hcontra.2 h0⟩
    · exact ⟨le_of_eq h0.symm, le_of_lt hc, fun hcontra => hcontra.1 h0⟩
  · have hfold := foldl_backtestStep_inv (rollingMean 20 (ps.map FVal.val))
      (rollingMean 50 (ps.map FVal.val)) ps hpos
      (List.range' 50 (ps.length - 50)) hmem _ hinv0
    rw [backtest_add_indicators]
    rcases hfold with ⟨hc, h0⟩ | ⟨h0, hc⟩
    · exact ⟨_, by simp only [if_pos hc], hc⟩
    · have hne : ps ≠ [] := by
        intro hnil
        rw [hnil] at h0
        simp at h0
      have hlast : ps.getLast? = some (ps.getLast hne) := List.getLast?_eq_getLast ps hne
      have hlp : 0 < ps.getLast hne := hpos _ (List.getLast_mem hne)
      refine ⟨(List.foldl (backtestStep (rollingMean 20 (ps.map FVal.val))
          (rollingMean 50 (ps.map FVal.val)) ps) ((1000 : ℚ), (0 : ℚ))
          (List.range' 50 (ps.length - 50))).2 * ps.getLast hne, ?_, ?_⟩
      · rw [if_neg (by rw [h0]; exact lt_irrefl 0), hlast]
        rfl
      · exact mul_pos hc hlp

/-- C10 witness: the positive two-point series `[1, 2]`. -/
theorem backtest_state_invariant_witness :
    (∀ q ∈ ([1, 2] : List ℚ), 0 < q) ∧
    ((∀ n : ℕ,
      0 ≤ (((List.range' 50 (([1, 2] : List ℚ).length - 50)).take n).foldl
          (backtestStep (rollingMean 20 (([1, 2] : List ℚ).map FVal.val))
            (rollingMean 50 (([1, 2] : List ℚ).map FVal.val)) [1, 2])
          ((1000 : ℚ), (0 : ℚ))).1 ∧
      0 ≤ (((List.range' 50 (([1, 2] : List ℚ).length - 50)).take n).foldl
          (backtestStep (rollingMean 20 (([1, 2] : List ℚ).map FVal.val))
            (rollingMean 50 (([1, 2] : List ℚ).map FVal.val)) [1, 2])
          ((1000 : ℚ), (0 : ℚ))).2 ∧
      ¬((((List.range' 50 (([1, 2] : List ℚ).length - 50)).take n).foldl
          (backtestStep (rollingMean 20 (([1, 2] : List ℚ).map FVal.val))
            (rollingMean 50 (([1, 2] : List ℚ).map FVal.val)) [1, 2])
          ((1000 : ℚ), (0 : ℚ))).1 ≠ 0 ∧
        (((List.range' 50 (([1, 2] : List ℚ).length - 50)).take n).foldl
          (backtestStep (rollingMean 20 (([1, 2] : List ℚ).map FVal.val))
            (rollingMean 50 (([1, 2] : List ℚ).map FVal.val)) [1, 2])
          ((1000 : ℚ), (0 : ℚ))).2 ≠ 0)) ∧
    ∃ res : ℚ, backtest (add_indicators (rawDF [1, 2])) = some res ∧ 0 < res) :=
  ⟨by norm_num, backtest_state_invariant [1, 2] (by norm_num)⟩
